import Mathlib

/-!
Shallow embedding of `src/index.js` (rw-locations-populator-for-hec).

The script reads a CSV of Rwandan administrative locations, sorts the batch by
administrative level using `Array.prototype.sort` with the comparator
`(a, b) => order.indexOf(a.Level.toUpperCase()) - order.indexOf(b.Level.toUpperCase())`,
and then posts each record to a remote API, catching every per-record network
error inside the loop.

Modelling decisions:
- JS strings are Lean `String`s; the two string operations the script uses,
  `toUpperCase` and `trim`, are re-implemented over the underlying character
  list (`jsToUpperCase`, `jsTrim`) in their ASCII fragment, which is the
  fragment the data exercises, because the built-in `String.toUpper` and
  `String.trim` do not reduce in the kernel.
- `Array.prototype.sort` (ECMAScript 2019 and later) is a stable sort; with a
  consistent numeric comparator its output is the unique stable ascending
  reordering, realised here by the stable `List.insertionSort` over the
  relation "comparator value nonpositive".
- The HTTP transport (axios) is external; it is modelled as an oracle mapping a
  request (url and payload) to either response data or an `AxiosError`, with
  the three error shapes the script distinguishes (`error.response`,
  `error.request`, setup failure).
- The CSV stream is external; `readCsvFile` is modelled as a function of the
  stream outcome (a parsed list of raw rows, or a stream error), applying the
  script's per-row cleanup handler to every row.
- Observable behaviour of the publisher is the per-record console line; the
  run is the list of those lines.
-/

namespace RwLoc

/-! ### JS string primitives (ASCII fragment) -/

/-- ASCII fragment of `String.prototype.toUpperCase` on one character. -/
def jsCharToUpper (c : Char) : Char :=
  if 97 ≤ c.toNat && c.toNat ≤ 122 then Char.ofNat (c.toNat - 32) else c

/-- ASCII fragment of `String.prototype.toUpperCase`. -/
def jsToUpperCase (s : String) : String :=
  String.mk (s.data.map jsCharToUpper)

/-- Whitespace predicate used by `trim`. -/
def jsIsWhitespace (c : Char) : Bool :=
  c.isWhitespace

/-- JS `String.prototype.trim`: strip leading and trailing whitespace. -/
def jsTrim (s : String) : String :=
  String.mk (((s.data.dropWhile jsIsWhitespace).reverse.dropWhile jsIsWhitespace).reverse)

/-- JS `Array.prototype.indexOf` on an array of strings: first index of `x`, or `-1`. -/
def jsIndexOf (arr : List String) (x : String) : Int :=
  match arr with
  | [] => -1
  | a :: rest =>
      if a = x then 0
      else if jsIndexOf rest x = -1 then -1 else jsIndexOf rest x + 1

/-! ### Data model -/

/-- One CSV row as destructured by the script:
`const { Level, LocationCode, LocationName, ParentCode } = location`. -/
structure LocationRecord where
  Level : String
  LocationCode : String
  LocationName : String
  ParentCode : String
deriving DecidableEq

/-- Source: `const locationTypesOrder = ['PROVINCE', 'DISTRICT', 'SECTOR', 'CELL', 'VILLAGE']`. -/
def locationTypesOrder : List String :=
  ["PROVINCE", "DISTRICT", "SECTOR", "CELL", "VILLAGE"]

/-- Rank of a record's level, `locationTypesOrder.indexOf(a.Level.toUpperCase())`;
yields `-1` when the level is not recognised. -/
def levelRank (r : LocationRecord) : Int :=
  jsIndexOf locationTypesOrder (jsToUpperCase r.Level)

/-- A record's level normalizes (by uppercasing) to one of the five tags. -/
def recognizedLevel (r : LocationRecord) : Prop :=
  jsToUpperCase r.Level ∈ locationTypesOrder

instance (r : LocationRecord) : Decidable (recognizedLevel r) :=
  inferInstanceAs (Decidable (_ ∈ _))

/-! ### Hierarchy sequencer -/

/-- The comparator `(a, b) => levelA - levelB` passed to `sort`.
(The `try`/`catch` around it only guards against `Level` not being a string,
which cannot happen for the string-typed rows produced by the loader.) -/
def sortComparator (a b : LocationRecord) : Int :=
  levelRank a - levelRank b

/-- Relation read as: `a` sorts no later than `b`, i.e. the comparator value is nonpositive. -/
def leRank (a b : LocationRecord) : Prop :=
  sortComparator a b ≤ 0

theorem leRank_iff {a b : LocationRecord} : leRank a b ↔ levelRank a ≤ levelRank b :=
  sub_nonpos

instance : DecidableRel leRank :=
  fun _ _ => inferInstanceAs (Decidable (_ ≤ _))

instance : IsTotal LocationRecord leRank :=
  ⟨fun a b => by
    simp only [leRank_iff]
    exact le_total _ _⟩

instance : IsTrans LocationRecord leRank :=
  ⟨fun _ _ _ h h' => by
    simp only [leRank_iff] at h h' ⊢
    exact le_trans h h'⟩

/-- Source: `locationsData.sort(comparator)`. ECMAScript guarantees a stable sort and, for
a consistent comparator, the unique stable ascending reordering; this is realised
by the stable insertion sort with respect to `leRank`. -/
def sequenceLocations (locationsData : List LocationRecord) : List LocationRecord :=
  locationsData.insertionSort leRank

/-! ### Location publisher -/

/-- The request body built for each record:
`{ locationCode, locationType: Level.toUpperCase(), locationName }`. -/
structure Payload where
  locationCode : String
  locationType : String
  locationName : String
deriving DecidableEq

/-- Source: `const API_BASE_URL = 'http://localhost:8081/api/hec/location'`. -/
def API_BASE_URL : String :=
  "http://localhost:8081/api/hec/location"

def buildPayload (location : LocationRecord) : Payload :=
  { locationCode := location.LocationCode
    locationType := jsToUpperCase location.Level
    locationName := location.LocationName }

/-- Unreserved characters of `encodeURIComponent`:
`A-Z a-z 0-9 - _ . ! ~ * apostrophe ( )` (by code point). -/
def isUnreservedURIChar (c : Char) : Bool :=
  (65 ≤ c.toNat && c.toNat ≤ 90) || (97 ≤ c.toNat && c.toNat ≤ 122) ||
  (48 ≤ c.toNat && c.toNat ≤ 57) ||
  c.toNat == 45 || c.toNat == 95 || c.toNat == 46 || c.toNat == 33 ||
  c.toNat == 126 || c.toNat == 42 || c.toNat == 39 || c.toNat == 40 || c.toNat == 41

/-- Uppercase hexadecimal digit for a value below 16. -/
def hexDigitChar (n : Nat) : Char :=
  if n < 10 then Char.ofNat (48 + n) else Char.ofNat (55 + n)

/-- The UTF-8 bytes of a code point. -/
def utf8Bytes (n : Nat) : List Nat :=
  if n < 128 then [n]
  else if n < 2048 then [192 + n / 64, 128 + n % 64]
  else if n < 65536 then [224 + n / 4096, 128 + n / 64 % 64, 128 + n % 64]
  else [240 + n / 262144, 128 + n / 4096 % 64, 128 + n / 64 % 64, 128 + n % 64]

/-- Percent encoding of one character as its UTF-8 bytes. -/
def percentEncodeChar (c : Char) : List Char :=
  ((utf8Bytes c.toNat).map (fun b => ['%', hexDigitChar (b / 16), hexDigitChar (b % 16)])).flatten

/-- JS `encodeURIComponent`. -/
def encodeURIComponent (s : String) : String :=
  String.mk ((s.data.map (fun c => if isUnreservedURIChar c then [c] else percentEncodeChar c)).flatten)

/-- The request URL for a record: `API_BASE_URL + '/saveLocation'`, with
`?parentCode=<encoded>` appended when `ParentCode` is truthy and nonempty. -/
def buildApiUrl (location : LocationRecord) : String :=
  let apiUrl := API_BASE_URL ++ "/saveLocation"
  if location.ParentCode.length > 0 then
    apiUrl ++ "?parentCode=" ++ encodeURIComponent location.ParentCode
  else
    apiUrl

/-- The three error shapes the script's `catch` distinguishes:
`error.response` (server replied non-2xx), `error.request` (no response),
and a request-setup failure. -/
inductive AxiosError where
  | response (status : Nat) (data : String)
  | request (message : String)
  | setup (message : String)

/-- The external HTTP transport: one `axios.post`, as an oracle from the request
(url, payload) to either response data or an `AxiosError`. -/
def PostOracle : Type :=
  String → Payload → Except AxiosError String

/-- The body of the publisher loop for one record: build the payload and URL,
attempt the post, and produce the one console line the `try`/`catch` emits.
The function is total: every error is consumed here and cannot escape. -/
def attemptLog (post : PostOracle) (location : LocationRecord) : String :=
  let payload := buildPayload location
  let apiUrl := buildApiUrl location
  match post apiUrl payload with
  | Except.ok data =>
      "SUCCESS: " ++ location.LocationName ++ " (" ++ location.LocationCode ++ ") - " ++ data
  | Except.error (AxiosError.response status data) =>
      "ERROR saving " ++ location.LocationName ++ " (" ++ location.LocationCode ++
        "): Status " ++ toString status ++ " - " ++ data
  | Except.error (AxiosError.request message) =>
      "ERROR: No response received for " ++ location.LocationName ++ " (" ++
        location.LocationCode ++ "). Is the server running? " ++ message
  | Except.error (AxiosError.setup message) =>
      "ERROR: Request setup failed for " ++ location.LocationName ++ " (" ++
        location.LocationCode ++ "): " ++ message

/-- The loop `for (const location of locationsData)`: one attempt per record, in
order, each producing exactly one log line. -/
def publishLogs (post : PostOracle) : List LocationRecord → List String
  | [] => []
  | location :: rest => attemptLog post location :: publishLogs post rest

/-- Source `populateLocations`: sort the batch in place, then publish every record
sequentially. The observable behaviour is the sequence of per-record log lines. -/
def populateLocations (post : PostOracle) (locationsData : List LocationRecord) : List String :=
  publishLogs post (sequenceLocations locationsData)

/-! ### Record loader -/

/-- The data handler of `readCsvFile`: trim every string value of a
parsed row. A raw row is its (column, value) pairs; all parsed values are
strings. -/
def cleanRow (data : List (String × String)) : List (String × String) :=
  data.map (fun kv => (kv.1, jsTrim kv.2))

/-- Source `readCsvFile`, as a function of the stream outcome: on a successful parse it
resolves with the cleaned rows in file order; a stream error rejects the
promise with that error (no partial result). -/
def readCsvFile (stream : Except String (List (List (String × String)))) :
    Except String (List (List (String × String))) :=
  match stream with
  | Except.ok rawRows => Except.ok (rawRows.map cleanRow)
  | Except.error e => Except.error e

/-! ### Main -/

/-- The observable outcome of one run of the script: the publish log lines, the
top-level error line if any, and the process exit code. -/
structure MainOutcome where
  publishAttempts : List String
  errorLog : Option String
  exitCode : Nat
deriving DecidableEq

/-- Source `main()`: awaits the load inside `try`/`catch`; on success with a nonempty
batch it runs `populateLocations`; a load rejection is caught and logged as
`Failed to run population script`. The process always ends with exit code 0:
the rejection is handled, and the script neither rethrows nor calls
`process.exit`. -/
def mainRun (load : Except String (List LocationRecord)) (post : PostOracle) : MainOutcome :=
  match load with
  | Except.ok locations =>
      if locations.length > 0 then
        { publishAttempts := populateLocations post locations
          errorLog := none
          exitCode := 0 }
      else
        { publishAttempts := []
          errorLog := none
          exitCode := 0 }
  | Except.error e =>
      { publishAttempts := []
        errorLog := some ("Failed to run population script: " ++ toString e)
        exitCode := 0 }

/-! ### Rank lemmas -/

theorem jsIndexOf_eq_neg_one_of_not_mem {arr : List String} {x : String} (h : x ∉ arr) :
    jsIndexOf arr x = -1 := by
  induction arr with
  | nil => rfl
  | cons a rest ih =>
      rw [jsIndexOf]
      rw [if_neg (fun (he : a = x) => h (he ▸ List.mem_cons_self a rest))]
      rw [ih (fun hm => h (List.mem_cons_of_mem _ hm))]
      rw [if_pos rfl]

theorem jsIndexOf_nonneg_of_mem {arr : List String} {x : String} (h : x ∈ arr) :
    0 ≤ jsIndexOf arr x := by
  induction arr with
  | nil => cases h
  | cons a rest ih =>
      rw [jsIndexOf]
      by_cases hax : a = x
      · rw [if_pos hax]
      · rw [if_neg hax]
        have hm : x ∈ rest := by
          rcases List.mem_cons.mp h with h1 | h1
          · exact absurd h1.symm hax
          · exact h1
        have hr := ih hm
        by_cases h1 : jsIndexOf rest x = -1
        · rw [if_pos h1]
          omega
        · rw [if_neg h1]
          omega

theorem levelRank_eq_neg_one {r : LocationRecord} (h : ¬ recognizedLevel r) :
    levelRank r = -1 :=
  jsIndexOf_eq_neg_one_of_not_mem h

theorem levelRank_nonneg {r : LocationRecord} (h : recognizedLevel r) :
    0 ≤ levelRank r :=
  jsIndexOf_nonneg_of_mem h

/-! ### Sequencer lemmas -/

theorem sequenceLocations_sorted (batch : List LocationRecord) :
    List.Sorted leRank (sequenceLocations batch) :=
  List.sorted_insertionSort leRank batch

theorem sequenceLocations_perm (batch : List LocationRecord) :
    (sequenceLocations batch).Perm batch :=
  List.perm_insertionSort leRank batch

theorem sequenceLocations_rank_le (batch : List LocationRecord)
    (i j : Fin (sequenceLocations batch).length) (hij : i < j) :
    levelRank ((sequenceLocations batch).get i) ≤ levelRank ((sequenceLocations batch).get j) :=
  leRank_iff.mp (List.pairwise_iff_get.mp (sequenceLocations_sorted batch) i j hij)

/-! ### Concrete rows used by witnesses -/

/-- The spec's example province row. -/
def provRow : LocationRecord :=
  { Level := "province", LocationCode := "RW01", LocationName := "Kigali", ParentCode := "" }

/-- The spec's example district row. -/
def distRow : LocationRecord :=
  { Level := "district", LocationCode := "RW0101", LocationName := "Nyarugenge", ParentCode := "RW01" }

def sectRow : LocationRecord :=
  { Level := "sector", LocationCode := "RW010101", LocationName := "Gitega", ParentCode := "RW0101" }

def vilRow : LocationRecord :=
  { Level := "village", LocationCode := "RW0101010101", LocationName := "Akabahizi", ParentCode := "RW01010101" }

/-- A row whose level does not normalize to any of the five tags. -/
def bogusRow : LocationRecord :=
  { Level := "region", LocationCode := "RWXX", LocationName := "Nowhere", ParentCode := "" }

/-! ### Claim theorems: the hierarchy sequencer -/

/-- C1: for a batch whose records all have recognised levels, the sequencer's
output is rank-ordered: whenever the record at output position `i` has strictly
smaller rank than the record at output position `j` (under the fixed rank table
PROVINCE=0, DISTRICT=1, SECTOR=2, CELL=3, VILLAGE=4), position `i` comes first. -/
theorem sequencer_ordering_invariant (batch : List LocationRecord)
    (hrec : ∀ r ∈ batch, recognizedLevel r)
    (i j : Fin (sequenceLocations batch).length)
    (hlt : levelRank ((sequenceLocations batch).get i) <
           levelRank ((sequenceLocations batch).get j)) :
    (i : Nat) < (j : Nat) := by
  by_contra hij
  rcases Nat.lt_or_ge (j : Nat) (i : Nat) with hji | hji
  · exact absurd (sequenceLocations_rank_le batch j i hji) (not_le.mpr hlt)
  · have : i = j := Fin.ext (le_antisymm (Nat.not_lt.mp hij) hji).symm
    subst this
    exact lt_irrefl _ hlt

theorem sequencer_ordering_invariant_witness :
    (∀ r ∈ [vilRow, provRow], recognizedLevel r) ∧ (0 : Nat) < (1 : Nat) :=
  ⟨by decide,
   sequencer_ordering_invariant [vilRow, provRow] (by decide)
     ⟨0, by decide⟩ ⟨1, by decide⟩ (by decide)⟩

/-- C7: sequencing is idempotent — applying the sequencer to an already
sequenced batch returns it unchanged, so a second run yields exactly the same
ordering (in particular the same relative order of differently-ranked records). -/
theorem sequencer_idempotent (batch : List LocationRecord) :
    sequenceLocations (sequenceLocations batch) = sequenceLocations batch :=
  (sequenceLocations_sorted batch).insertionSort_eq

/-- C6: a batch containing a record with an unrecognised level is still sorted
without raising: the comparator's rank lookup yields -1 (the "not found" value)
for every such record, the sort completes, and the output is a permutation of
the batch (nothing is dropped or crashed). The position of such records is
deterministic: `sequenceLocations` is a function of the batch alone. -/
theorem sequencer_malformed_robust (batch : List LocationRecord)
    (hmal : ∃ r ∈ batch, ¬ recognizedLevel r) :
    (∀ r ∈ batch, ¬ recognizedLevel r → levelRank r = -1) ∧
    (sequenceLocations batch).Perm batch ∧
    (sequenceLocations batch).length = batch.length :=
  ⟨fun _ _ h => levelRank_eq_neg_one h,
   sequenceLocations_perm batch,
   (sequenceLocations_perm batch).length_eq⟩

theorem sequencer_malformed_robust_witness :
    (∃ r ∈ [provRow, bogusRow], ¬ recognizedLevel r) ∧
    ((∀ r ∈ [provRow, bogusRow], ¬ recognizedLevel r → levelRank r = -1) ∧
     (sequenceLocations [provRow, bogusRow]).Perm [provRow, bogusRow] ∧
     (sequenceLocations [provRow, bogusRow]).length = [provRow, bogusRow].length) :=
  ⟨by decide, sequencer_malformed_robust [provRow, bogusRow] (by decide)⟩

/-- C9: a record whose level does not normalize to a recognised tag gets
comparator rank -1, so in the sequencer's output every such record appears
before every record with a recognised level (whose rank is at least 0). -/
theorem unrecognized_levels_sort_first (batch : List LocationRecord)
    (i j : Fin (sequenceLocations batch).length)
    (hui : ¬ recognizedLevel ((sequenceLocations batch).get i))
    (hrj : recognizedLevel ((sequenceLocations batch).get j)) :
    levelRank ((sequenceLocations batch).get i) = -1 ∧ (i : Nat) < (j : Nat) := by
  have h1 : levelRank ((sequenceLocations batch).get i) = -1 := levelRank_eq_neg_one hui
  have h2 : 0 ≤ levelRank ((sequenceLocations batch).get j) := levelRank_nonneg hrj
  refine ⟨h1, ?_⟩
  by_contra hij
  rcases Nat.lt_or_ge (j : Nat) (i : Nat) with hji | hji
  · have := sequenceLocations_rank_le batch j i hji
    omega
  · have : i = j := Fin.ext (le_antisymm (Nat.not_lt.mp hij) hji).symm
    subst this
    exact hui hrj

theorem unrecognized_levels_sort_first_witness :
    (¬ recognizedLevel ((sequenceLocations [provRow, bogusRow]).get ⟨0, by decide⟩)) ∧
    (recognizedLevel ((sequenceLocations [provRow, bogusRow]).get ⟨1, by decide⟩)) ∧
    (levelRank ((sequenceLocations [provRow, bogusRow]).get ⟨0, by decide⟩) = -1 ∧ (0 : Nat) < (1 : Nat)) :=
  ⟨by decide, by decide,
   unrecognized_levels_sort_first [provRow, bogusRow] ⟨0, by decide⟩ ⟨1, by decide⟩
     (by decide) (by decide)⟩

/-! ### Stability of the sequencer -/

theorem filter_rank_orderedInsert (k : Int) (a : LocationRecord) (s : List LocationRecord) :
    (s.orderedInsert leRank a).filter (fun x => levelRank x = k) =
      if levelRank a = k then a :: s.filter (fun x => levelRank x = k)
      else s.filter (fun x => levelRank x = k) := by
  induction s with
  | nil =>
      by_cases h : levelRank a = k <;>
        simp [List.orderedInsert, List.filter, h]
  | cons b s ih =>
      rw [List.orderedInsert]
      by_cases hab : leRank a b
      · rw [if_pos hab]
        by_cases h : levelRank a = k <;> simp [List.filter_cons, h]
      · rw [if_neg hab]
        have hba : levelRank b < levelRank a := by
          simp only [leRank, sortComparator] at hab
          omega
        by_cases h : levelRank a = k
        · have hbk : ¬ (levelRank b = k) := by omega
          simp [List.filter_cons, hbk, ih, h]
        · simp [List.filter_cons, ih, h]

/-- C10: equal-rank stability. The comparator returns 0 exactly on records of
equal rank, and the sequencer preserves the relative input order of equal-rank
records: for every rank value `k`, the subsequence of records of rank `k` in
the output equals the subsequence of records of rank `k` in the input. -/
theorem sequencer_equal_rank_stable (batch : List LocationRecord) (k : Int) :
    (∀ a b : LocationRecord, sortComparator a b = 0 ↔ levelRank a = levelRank b) ∧
    (sequenceLocations batch).filter (fun r => levelRank r = k) =
      batch.filter (fun r => levelRank r = k) := by
  constructor
  · intro a b
    simp only [sortComparator]
    omega
  · unfold sequenceLocations
    induction batch with
    | nil => rfl
    | cons a l ih =>
        rw [List.insertionSort]
        rw [filter_rank_orderedInsert]
        by_cases h : levelRank a = k <;> simp [List.filter_cons, h, ih]

/-! ### Claim theorems: the location publisher -/

theorem publishLogs_eq_map (post : PostOracle) (l : List LocationRecord) :
    publishLogs post l = l.map (attemptLog post) := by
  induction l with
  | nil => rfl
  | cons a l ih => rw [publishLogs, List.map_cons, ih]

/-- C2: per-record publish isolation. For any transport oracle and ordered
batch, even when the post for the record at position `i` fails (server
rejection, no response, or setup failure), the publisher still produces exactly
one log line for every record of the batch, in order — every subsequent record
is attempted, the error is consumed at that record's call (by totality of
`attemptLog`), and the run does not terminate early. -/
theorem publish_isolation (post : PostOracle) (batch : List LocationRecord)
    (i : Fin batch.length)
    (hfail : ∃ e, post (buildApiUrl (batch.get i)) (buildPayload (batch.get i)) = Except.error e) :
    (publishLogs post batch).length = batch.length ∧
    ∀ j : Fin batch.length, (publishLogs post batch).get? (j : Nat) =
      some (attemptLog post (batch.get j)) := by
  constructor
  · rw [publishLogs_eq_map, List.length_map]
  · intro j
    rw [publishLogs_eq_map, List.get?_map, List.get?_eq_get j.isLt]
    rfl

/-- A transport that fails every request with a 500 response, simulating the
server rejecting record 2 of a 3-record batch. -/
def postFail : PostOracle :=
  fun _ _ => Except.error (AxiosError.response 500 "Internal Server Error")

theorem publish_isolation_witness :
    (∃ e, postFail (buildApiUrl ([provRow, distRow, sectRow].get ⟨1, by decide⟩))
        (buildPayload ([provRow, distRow, sectRow].get ⟨1, by decide⟩)) = Except.error e) ∧
    (publishLogs postFail [provRow, distRow, sectRow]).length = [provRow, distRow, sectRow].length :=
  ⟨⟨AxiosError.response 500 "Internal Server Error", rfl⟩,
   (publish_isolation postFail [provRow, distRow, sectRow] ⟨1, by decide⟩
     ⟨AxiosError.response 500 "Internal Server Error", rfl⟩).1⟩

/-- C4: payload shape. For every record the emitted payload is exactly
`{locationCode := code, locationType := uppercased level, locationName := name}`
(the `Payload` type has no other field, in particular no parent field), and for
the spec's example row `Level=province, LocationCode=RW01, LocationName=Kigali,
ParentCode=` the payload is
`{locationCode := "RW01", locationType := "PROVINCE", locationName := "Kigali"}`
and the request URL carries no parent-addressing query parameter. -/
theorem payload_shape :
    (∀ r : LocationRecord, buildPayload r =
      { locationCode := r.LocationCode
        locationType := jsToUpperCase r.Level
        locationName := r.LocationName }) ∧
    buildPayload provRow =
      { locationCode := "RW01", locationType := "PROVINCE", locationName := "Kigali" } ∧
    buildApiUrl provRow = "http://localhost:8081/api/hec/location/saveLocation" :=
  ⟨fun _ => rfl, by decide, by decide⟩

/-- C5: parent parameter attachment. For every record with a nonempty
`ParentCode`, the request URL is the save-location endpoint with the parent
code attached as the `parentCode` query parameter (URI-component encoded, not
in the payload body). -/
theorem parent_param_attachment (r : LocationRecord) (h : r.ParentCode.length > 0) :
    buildApiUrl r =
      "http://localhost:8081/api/hec/location/saveLocation?parentCode=" ++
        encodeURIComponent r.ParentCode := by
  unfold buildApiUrl
  rw [if_pos h]
  have hpre : API_BASE_URL ++ "/saveLocation" ++ "?parentCode=" =
      "http://localhost:8081/api/hec/location/saveLocation?parentCode=" := by decide
  rw [hpre]

theorem parent_param_attachment_witness :
    distRow.ParentCode.length > 0 ∧
    buildApiUrl distRow =
      "http://localhost:8081/api/hec/location/saveLocation?parentCode=" ++
        encodeURIComponent distRow.ParentCode ∧
    encodeURIComponent distRow.ParentCode = "RW01" :=
  ⟨by decide, parent_param_attachment distRow (by decide), by decide⟩

/-! ### Claim theorems: the record loader -/

/-- C8: field trimming. Every string field of every loaded row is handed
downstream with surrounding whitespace stripped: the loaded value at any
position is exactly `jsTrim` of the raw parsed value at the same position. -/
theorem loader_trims_fields (rawRows : List (List (String × String))) (i j : Nat)
    (row : List (String × String)) (kv : String × String)
    (hi : rawRows.get? i = some row) (hj : row.get? j = some kv) :
    ∃ cleanedRows, readCsvFile (Except.ok rawRows) = Except.ok cleanedRows ∧
      cleanedRows.get? i = some (cleanRow row) ∧
      (cleanRow row).get? j = some (kv.1, jsTrim kv.2) := by
  refine ⟨rawRows.map cleanRow, rfl, ?_, ?_⟩
  · rw [List.get?_map, hi]
    rfl
  · unfold cleanRow
    rw [List.get?_map, hj]
    rfl

theorem loader_trims_fields_witness :
    ([[("LocationName", "  Kigali  ")]] : List (List (String × String))).get? 0 =
        some [("LocationName", "  Kigali  ")] ∧
    ([("LocationName", "  Kigali  ")] : List (String × String)).get? 0 =
        some ("LocationName", "  Kigali  ") ∧
    jsTrim "  Kigali  " = "Kigali" ∧
    (∃ cleanedRows,
      readCsvFile (Except.ok [[("LocationName", "  Kigali  ")]]) = Except.ok cleanedRows ∧
      cleanedRows.get? 0 = some (cleanRow [("LocationName", "  Kigali  ")]) ∧
      (cleanRow [("LocationName", "  Kigali  ")]).get? 0 =
        some ("LocationName", jsTrim "  Kigali  ")) :=
  ⟨rfl, rfl, by decide,
   loader_trims_fields [[("LocationName", "  Kigali  ")]] 0 0
     [("LocationName", "  Kigali  ")] ("LocationName", "  Kigali  ") rfl rfl⟩

/-! ### Claim theorems: load failure -/

/-- A transport that accepts every request, so that any network activity would
be observable as a SUCCESS log line. -/
def postOk : PostOracle :=
  fun _ _ => Except.ok "Location saved"

/-- C3 counterexample: the claim as stated is false on the code. For the
concrete load failure "ENOENT: no such file or directory", the run does abort
before any network activity, but the process does not terminate with a
non-zero-equivalent signal: `main` catches the rejection, logs it, and the
process exits with code 0. -/
theorem load_failure_nonzero_exit_counterexample :
    ¬ ((mainRun (Except.error "ENOENT: no such file or directory") postOk).publishAttempts = [] ∧
       (mainRun (Except.error "ENOENT: no such file or directory") postOk).exitCode ≠ 0) :=
  fun h => h.2 rfl

/-- C3 amended: when the input file cannot be opened or read, the load error
propagates out of `readCsvFile` to `main`, the entire run aborts before any
network activity (no publish call is ever attempted), and the failure is
surfaced to the operator as a terminal `Failed to run population script` error
log; however `main` catches the error, so the process exits with code 0, not a
non-zero-equivalent signal. -/
theorem load_failure_aborts_run (e : String) (post : PostOracle) :
    (mainRun (Except.error e) post).publishAttempts = [] ∧
    (mainRun (Except.error e) post).errorLog =
      some ("Failed to run population script: " ++ e) ∧
    (mainRun (Except.error e) post).exitCode = 0 :=
  ⟨rfl, rfl, rfl⟩

end RwLoc
